import Mathlib

/-!
# Verification of the rcli text signing core

A shallow embedding of the message-authentication subsystem of the rcli
tool (`src/process/text.rs`, `src/process/gen_pass.rs`, `src/utils.rs`),
together with proofs about it.

Modelling conventions:

* Bytes are `Nat` values, byte strings are `List Nat`; where overflow or
  range matters a hypothesis `b < 256` is carried explicitly.
* Fallible Rust functions returning `anyhow::Result` become `Except PErr`.
  A Rust panic (an out-of-range slice index) is modelled as the
  distinguished error value `PErr.panicked`, so that "returns an error"
  and "panics" stay distinguishable in theorems.
* External cryptographic primitives (the keyed hash of the `blake3` crate
  and the `ed25519_dalek` sign/verify/derive functions) are not code of
  this repository; they enter the embedding as explicit function
  parameters (`kh`, `edSign`, `edVerify`, `edPub`, `pkValid`), constrained
  only by hypotheses that record their documented output lengths. Both
  primitives are deterministic functions of their inputs, which is why a
  plain function parameter is a faithful model.
* Randomness (the OS random source and `rand::thread_rng`) is modelled as
  a stream `rng : Nat → Nat` of draws; the n-th random decision of an
  operation consumes `rng n`.
-/

namespace RCli

/-- Error outcomes of the embedded operations. The Rust code wraps every
failure in `anyhow::Error`; we keep the underlying causes apart.
`panicked` is not an error value in Rust at all: it marks a place where
the Rust code would panic (abort) rather than return `Err`. -/
inductive PErr where
  /-- `std::io::Error`: unreadable path, or invalid UTF-8 fed to
  `read_to_string`. -/
  | ioError
  /-- A Rust panic, e.g. slice indexing out of range. -/
  | panicked
  /-- `TryFromSliceError` from a failed `try_into` length conversion. -/
  | tryFromSlice
  /-- `ed25519_dalek::SignatureError` from `VerifyingKey::from_bytes` on
  32 bytes that are not a valid curve point. -/
  | badPoint
  /-- `base64::DecodeError` from `URL_SAFE_NO_PAD.decode`. -/
  | decodeError
  deriving DecidableEq, Repr

/-- The format tag selecting a scheme. Its enum declaration lives in the
CLI layer (`src/cli/text.rs`, not part of the core sources); the two
variants are fixed by the `match` arms of `process_sign`, `process_verify`
and `process_keygen` in `src/process/text.rs`. -/
inductive TextSignFormat where
  | Blake3
  | Ed25519
  deriving DecidableEq, Repr

/-- UTF-8 encoding of one character, as in Rust `str::as_bytes`. -/
def utf8EncodeChar (c : Char) : List Nat :=
  let n := c.toNat
  if n < 128 then [n]
  else if n < 2048 then [192 + n / 64, 128 + n % 64]
  else if n < 65536 then [224 + n / 4096, 128 + (n / 64) % 64, 128 + n % 64]
  else [240 + n / 262144, 128 + (n / 4096) % 64, 128 + (n / 64) % 64, 128 + n % 64]

/-- UTF-8 byte content of a string, as in Rust `String::as_bytes`. -/
def utf8Bytes (s : List Char) : List Nat :=
  (s.map utf8EncodeChar).flatten

/-- Strict UTF-8 decoding, as performed by Rust `read_to_string`:
rejects stray continuation bytes, overlong forms, surrogates and
code points above U+10FFFF. -/
def utf8Decode : List Nat → Option (List Char)
  | [] => some []
  | b :: bs =>
    if b < 128 then
      (utf8Decode bs).map (fun cs => Char.ofNat b :: cs)
    else if b < 194 then none
    else if b < 224 then
      match bs with
      | b2 :: bs2 =>
        if 128 ≤ b2 ∧ b2 < 192 then
          (utf8Decode bs2).map (fun cs => Char.ofNat ((b - 192) * 64 + (b2 - 128)) :: cs)
        else none
      | [] => none
    else if b < 240 then
      match bs with
      | b2 :: b3 :: bs3 =>
        if (128 ≤ b2 ∧ b2 < 192) ∧ (128 ≤ b3 ∧ b3 < 192)
            ∧ (b = 224 → 160 ≤ b2) ∧ (b = 237 → b2 < 160) then
          (utf8Decode bs3).map
            (fun cs => Char.ofNat ((b - 224) * 4096 + (b2 - 128) * 64 + (b3 - 128)) :: cs)
        else none
      | _ => none
    else if b < 245 then
      match bs with
      | b2 :: b3 :: b4 :: bs4 =>
        if (128 ≤ b2 ∧ b2 < 192) ∧ (128 ≤ b3 ∧ b3 < 192) ∧ (128 ≤ b4 ∧ b4 < 192)
            ∧ (b = 240 → 144 ≤ b2) ∧ (b = 244 → b2 < 144) then
          (utf8Decode bs4).map
            (fun cs => Char.ofNat
              ((b - 240) * 262144 + (b2 - 128) * 4096 + (b3 - 128) * 64 + (b4 - 128)) :: cs)
        else none
      | _ => none
    else none

/-- Rust `char::is_whitespace` (the Unicode White_Space property). -/
def isRustWhitespace (c : Char) : Bool :=
  let n := c.toNat
  decide ((9 ≤ n ∧ n ≤ 13) ∨ n = 32 ∨ n = 133 ∨ n = 160 ∨ n = 5760 ∨
    (8192 ≤ n ∧ n ≤ 8202) ∨ n = 8232 ∨ n = 8233 ∨ n = 8239 ∨ n = 8287 ∨ n = 12288)

/-- Rust `str::trim`: strip leading and trailing whitespace. -/
def trimChars (s : List Char) : List Char :=
  (((s.dropWhile isRustWhitespace).reverse).dropWhile isRustWhitespace).reverse

/-- The world the embedded operations read from: a byte content for each
readable path, and the bytes waiting on standard input. `none` marks a
path that cannot be opened. -/
structure Env where
  files : String → Option (List Nat)
  stdin : List Nat

/-- The raw bytes `get_buf` would read for `input`: standard input when
the identifier is `"-"`, else the content of the file at that path. -/
def sourceBytes (env : Env) (input : String) : Option (List Nat) :=
  if input = "-" then some env.stdin else env.files input

/-- `get_buf` of `src/utils.rs`: open standard input or the file, read it
all as a UTF-8 string (`read_to_string`, which fails on unreadable paths
and on invalid UTF-8), and trim surrounding whitespace. -/
def getBuf (env : Env) (input : String) : Except PErr (List Char) :=
  match sourceBytes env input with
  | none => .error .ioError
  | some bytes =>
    match utf8Decode bytes with
    | none => .error .ioError
    | some s => .ok (trimChars s)

/-! ## Scheme implementations (`src/process/text.rs`)

A scheme instance is the validated key material it wraps: the Rust
structs `Blake3 { key: [u8; 32] }`, `Ed25519Signer { key: SigningKey }`
and `Ed25519Verifier { key: VerifyingKey }` each hold exactly the 32 key
bytes they were constructed from, so the embedding carries those bytes
as a `List Nat`. -/

namespace Blake3

/-- `Blake3::try_new`: `let key = &key[0..32]` truncates the input to its
first 32 bytes — and panics with an out-of-range slice index when fewer
than 32 bytes were supplied; the following `try_into` to `[u8; 32]` then
always succeeds. -/
def tryNew (key : List Nat) : Except PErr (List Nat) :=
  if 32 ≤ key.length then .ok (key.take 32) else .error .panicked

/-- `KeyLoader for Blake3`: `fs::read` the path, then `try_new`. -/
def load (env : Env) (path : String) : Except PErr (List Nat) :=
  match env.files path with
  | some key => tryNew key
  | none => .error .ioError

/-- `TextSign for Blake3`: the keyed BLAKE3 hash of the UTF-8 bytes of
`data`, under the stored key. `kh` is the external
`blake3::keyed_hash` primitive. -/
def sign (kh : List Nat → List Nat → List Nat) (key : List Nat) (data : List Char) :
    Except PErr (List Nat) :=
  .ok (kh key (utf8Bytes data))

/-- `TextVerify for Blake3`: recompute the keyed hash and compare it with
the candidate signature; the comparison of a 32-byte array against a
slice is equality of lengths and contents. -/
def verify (kh : List Nat → List Nat → List Nat) (key : List Nat) (data : List Char)
    (sig : List Nat) : Except PErr Bool :=
  .ok (decide (kh key (utf8Bytes data) = sig))

end Blake3

namespace Ed25519Signer

/-- `Ed25519Signer::try_new`: `key.try_into()` to `&[u8; 32]` fails with a
`TryFromSliceError` unless exactly 32 bytes were supplied;
`SigningKey::from_bytes` accepts any 32 bytes. -/
def tryNew (key : List Nat) : Except PErr (List Nat) :=
  if key.length = 32 then .ok key else .error .tryFromSlice

/-- `KeyLoader for Ed25519Signer`: `fs::read` the path, then `try_new`. -/
def load (env : Env) (path : String) : Except PErr (List Nat) :=
  match env.files path with
  | some key => tryNew key
  | none => .error .ioError

/-- `TextSign for Ed25519Signer`: Ed25519 signature over the UTF-8 bytes
of `data` with the stored secret key. `edSign` is the external
deterministic `ed25519_dalek` signing primitive. -/
def sign (edSign : List Nat → List Nat → List Nat) (key : List Nat) (data : List Char) :
    Except PErr (List Nat) :=
  .ok (edSign key (utf8Bytes data))

end Ed25519Signer

namespace Ed25519Verifier

/-- `Ed25519Verifier::try_new`: `try_into` demands exactly 32 bytes, then
`VerifyingKey::from_bytes` rejects byte strings that are not a valid
compressed curve point (`pkValid` is that external validity check). -/
def tryNew (pkValid : List Nat → Bool) (key : List Nat) : Except PErr (List Nat) :=
  if key.length = 32 then
    if pkValid key then .ok key else .error .badPoint
  else .error .tryFromSlice

/-- `KeyLoader for Ed25519Verifier`: `fs::read` the path, then `try_new`. -/
def load (pkValid : List Nat → Bool) (env : Env) (path : String) : Except PErr (List Nat) :=
  match env.files path with
  | some key => tryNew pkValid key
  | none => .error .ioError

/-- `TextVerify for Ed25519Verifier`: `sig.try_into()?` converts the
candidate signature to `&[u8; 64]` and propagates a `TryFromSliceError`
when the length is not 64; `Signature::from_bytes` accepts any 64 bytes,
and the dalek `verify` call (`edVerify`, external) decides the outcome. -/
def verify (edVerify : List Nat → List Nat → List Nat → Bool) (key : List Nat)
    (data : List Char) (sig : List Nat) : Except PErr Bool :=
  if sig.length = 64 then .ok (edVerify key (utf8Bytes data) sig) else .error .tryFromSlice

end Ed25519Verifier

/-! ## The signature text encoding

`process_sign` and `process_verify` transport raw signature bytes as text
through `base64::engine::general_purpose::URL_SAFE_NO_PAD`: the URL-safe
base64 alphabet, no padding characters, and strict decoding (an input is
rejected when a character is outside the alphabet, when its length leaves
a single trailing character, or when unused trailing bits are nonzero).
The definitions below model that external engine. -/

/-- The URL-safe base64 alphabet. -/
def B64ALPHABET : List Char :=
  "ABCDEFGHIJKLMNOPQRSTUVWXYZabcdefghijklmnopqrstuvwxyz0123456789-_".data

/-- The alphabet character of a 6-bit value. -/
def sextetChar (s : Nat) : Char :=
  B64ALPHABET.getD s 'A'

/-- The 6-bit value of an alphabet character, `none` outside the alphabet. -/
def charSextet (c : Char) : Option Nat :=
  B64ALPHABET.findIdx? (fun a => a = c)

/-- Bytes to 6-bit groups: three bytes become four sextets; a final one or
two bytes become two or three sextets with zero filler bits. -/
def encodeGroups : List Nat → List Nat
  | [] => []
  | [b1] => [b1 / 4, b1 % 4 * 16]
  | [b1, b2] => [b1 / 4, b1 % 4 * 16 + b2 / 16, b2 % 16 * 4]
  | b1 :: b2 :: b3 :: rest =>
    b1 / 4 :: (b1 % 4 * 16 + b2 / 16) :: (b2 % 16 * 4 + b3 / 64) :: b3 % 64 ::
      encodeGroups rest

/-- 6-bit groups back to bytes: `none` on a lone trailing sextet and on
nonzero unused trailing bits, as in strict no-padding decoding. -/
def decodeGroups : List Nat → Option (List Nat)
  | [] => some []
  | [_] => none
  | [s1, s2] => if s2 % 16 = 0 then some [s1 * 4 + s2 / 16] else none
  | [s1, s2, s3] =>
    if s3 % 4 = 0 then some [s1 * 4 + s2 / 16, s2 % 16 * 16 + s3 / 4] else none
  | s1 :: s2 :: s3 :: s4 :: rest =>
    match decodeGroups rest with
    | some bs => some ((s1 * 4 + s2 / 16) :: (s2 % 16 * 16 + s3 / 4) :: (s3 % 4 * 64 + s4) :: bs)
    | none => none

/-- Map every character to its sextet, failing on the first character
outside the alphabet. -/
def mapSextets : List Char → Option (List Nat)
  | [] => some []
  | c :: cs =>
    match charSextet c, mapSextets cs with
    | some v, some vs => some (v :: vs)
    | _, _ => none

/-- `URL_SAFE_NO_PAD.encode`. -/
def b64encode (bs : List Nat) : String :=
  ⟨(encodeGroups bs).map sextetChar⟩

/-- `URL_SAFE_NO_PAD.decode`. -/
def b64decode (s : String) : Option (List Nat) :=
  (mapSextets s.data).bind decodeGroups

/-! ## The password generation helper (`src/process/gen_pass.rs`)

`process_genpass(length, uppercase, lowercase, number, symbol)` builds a
random password: for each class flag equal to 1 it adds the class
alphabet to the candidate pool and pushes one random member of the class,
then it fills up to `length` with random members of the pool, and finally
it shuffles the password.

Modelled from the spec: the helper as declared in `gen_pass.rs` prints
the password and returns `Result<()>`, while both of its callers
(`Blake3::generate` in `text.rs` and `main`) bind the result as the
password string, as the spec requires of `generate_password`; the model
returns the computed password string (as its bytes — every chosen
character is ASCII). -/

/-- `const UPPERCASE` (note: no I, no O). -/
def UPPERCASE : List Nat := "ABCDEFGHJKLMNPQRSTUVWXYZ".data.map Char.toNat

/-- `const LOWERCASE` (note: no l). -/
def LOWERCASE : List Nat := "abcdefghijkmnopqrstuvwxyz".data.map Char.toNat

/-- `const NUMBERS` (note: no 0). -/
def NUMBERS : List Nat := "123456789".data.map Char.toNat

/-- `const SYMBOLS`. -/
def SYMBOLS : List Nat := "!@#$%^&*_".data.map Char.toNat

/-- `SliceRandom::choose`: one uniform draw, modelled as the draw with
index `ctr` of the stream reduced modulo the pool size. -/
def chooseB (rng : Nat → Nat) (ctr : Nat) (pool : List Nat) : Nat :=
  pool.getD (rng ctr % pool.length) 0

/-- Running state of `process_genpass`: the password built so far, the
candidate pool, and how many random draws were consumed. -/
structure GPState where
  password : List Nat
  chars : List Nat
  ctr : Nat

/-- One `if flag == 1` block of `process_genpass`: extend the pool with
the class alphabet and push one random member of the class. -/
def gpAddClass (rng : Nat → Nat) (flag : Nat) (cls : List Nat) (st : GPState) : GPState :=
  if flag = 1 then
    { password := st.password ++ [chooseB rng st.ctr cls]
      chars := st.chars ++ cls
      ctr := st.ctr + 1 }
  else st

/-- The fill loop: `n` more random members of the pool. -/
def gpFill (rng : Nat → Nat) (pool : List Nat) : Nat → Nat → List Nat → List Nat × Nat
  | 0, ctr, pw => (pw, ctr)
  | n + 1, ctr, pw => gpFill rng pool n (ctr + 1) (pw ++ [chooseB rng ctr pool])

/-- Swap two positions of a list (out-of-range indices leave it
unchanged). -/
def listSwap (l : List Nat) (i j : Nat) : List Nat :=
  (l.set i (l.getD j 0)).set j (l.getD i 0)

/-- `SliceRandom::shuffle` is the Fisher-Yates walk
`for i in (1..len).rev() { swap(i, gen_range(0..=i)) }`; one step swaps
position `k + 1` with a uniform draw from `0..=k+1`. -/
def shuffleSteps (rng : Nat → Nat) : Nat → Nat → List Nat → List Nat
  | _, 0, l => l
  | ctr, k + 1, l => shuffleSteps rng (ctr + 1) k (listSwap l (k + 1) (rng ctr % (k + 2)))

/-- `process_genpass`, returning the password bytes. -/
def process_genpass (rng : Nat → Nat) (len up lo num sym : Nat) : List Nat :=
  let st0 : GPState := ⟨[], [], 0⟩
  let st1 := gpAddClass rng up UPPERCASE st0
  let st2 := gpAddClass rng lo LOWERCASE st1
  let st3 := gpAddClass rng num NUMBERS st2
  let st4 := gpAddClass rng sym SYMBOLS st3
  let filled := gpFill rng st4.chars (len - st4.password.length) st4.ctr st4.password
  shuffleSteps rng filled.2 (filled.1.length - 1) filled.1

/-! ## Key generation and the facade functions (`src/process/text.rs`) -/

/-- `KeyGen for Blake3`: one blob, the bytes of
`process_genpass(32, 1, 1, 1, 1)`. -/
def Blake3.generate (rng : Nat → Nat) : Except PErr (List (List Nat)) :=
  .ok [process_genpass rng 32 1 1 1 1]

/-- `KeyGen for Ed25519Signer`: draw a fresh signing key (32 bytes from
the OS random source), derive its verifying key (`edPub`, the external
`SigningKey::verifying_key`), and return `vec![sk, pk]`. -/
def Ed25519Signer.generate (edPub : List Nat → List Nat) (rng : Nat → Nat) :
    Except PErr (List (List Nat)) :=
  let sk := (List.range 32).map (fun i => rng i % 256)
  .ok [sk, edPub sk]

/-- `process_sign`: read and trim the source, load the key for the chosen
format, sign, and base64-encode the raw signature. -/
def process_sign (kh edSign : List Nat → List Nat → List Nat) (env : Env)
    (input key : String) (format : TextSignFormat) : Except PErr String := do
  let buf ← getBuf env input
  let signed ←
    match format with
    | .Blake3 => do
      let signer ← Blake3.load env key
      Blake3.sign kh signer buf
    | .Ed25519 => do
      let signer ← Ed25519Signer.load env key
      Ed25519Signer.sign edSign signer buf
  .ok (b64encode signed)

/-- `process_verify`: read and trim the source, base64-decode the
signature text, load the key for the chosen format, and verify. -/
def process_verify (kh : List Nat → List Nat → List Nat)
    (edVerify : List Nat → List Nat → List Nat → Bool) (pkValid : List Nat → Bool)
    (env : Env) (input key : String) (sig : String) (format : TextSignFormat) :
    Except PErr Bool := do
  let buf ← getBuf env input
  let sigBytes ←
    match b64decode sig with
    | some bs => Except.ok bs
    | none => Except.error PErr.decodeError
  match format with
  | .Blake3 => do
    let verifier ← Blake3.load env key
    Blake3.verify kh verifier buf sigBytes
  | .Ed25519 => do
    let verifier ← Ed25519Verifier.load pkValid env key
    Ed25519Verifier.verify edVerify verifier buf sigBytes

/-- `process_keygen`: dispatch to the generate of the chosen scheme. -/
def process_keygen (edPub : List Nat → List Nat) (rng : Nat → Nat)
    (format : TextSignFormat) : Except PErr (List (List Nat)) :=
  match format with
  | .Blake3 => Blake3.generate rng
  | .Ed25519 => Ed25519Signer.generate edPub rng

/-! ## Concrete stand-ins for the external primitives

The theorems below are proved for every choice of the external
primitives (constrained only by their output lengths); these concrete
instances exercise them on explicit inputs. -/

/-- A concrete keyed-hash stand-in with 32-byte output. -/
def khW : List Nat → List Nat → List Nat :=
  fun k d => (List.range 32).map (fun i => (k.sum + d.sum + i) % 256)

/-- A concrete signing stand-in with 64-byte output. -/
def edW : List Nat → List Nat → List Nat :=
  fun k d => (List.range 64).map (fun i => (k.sum + d.sum + i) % 256)

/-- A concrete verifying stand-in. -/
def edVW : List Nat → List Nat → List Nat → Bool :=
  fun k d s => decide (s = edW k d)

/-- A concrete public-key derivation stand-in with 32-byte output. -/
def pubW : List Nat → List Nat :=
  fun k => (List.range 32).map (fun i => (k.sum + i + 1) % 256)

/-- A concrete random stream stand-in. -/
def rngW : Nat → Nat :=
  fun n => n * 7 + 3

/-- A concrete public-key validity stand-in. -/
def pkVW : List Nat → Bool :=
  fun _ => true

/-- A concrete environment: a data file `"f"` holding `" hello1\n"`, a
data file `"g"` holding `"hello1"`, a key file `"k"` holding 32 bytes,
an empty standard input. -/
def envW : Env :=
  ⟨fun p =>
    if p = "f" then some (utf8Bytes " hello1\n".data)
    else if p = "g" then some (utf8Bytes "hello1".data)
    else if p = "k" then some (List.replicate 32 65)
    else none,
  []⟩

/-- The concrete environment of a second invocation: the same files as
`envW` (in particular the same key file `"k"`) and `"hello1"` waiting on
standard input. -/
def envW2 : Env :=
  ⟨envW.files, utf8Bytes "hello1".data⟩

/-! ## C1: keyed-hash sign/verify round-trip -/

/-- C1: for every 32-byte key `k` and every data string `d`, signing `d`
with the keyed-hash instance constructed from `k` and then verifying `d`
against that signature with the same instance returns `Ok(true)` —
for every choice of the deterministic keyed-hash primitive. -/
theorem blake3_sign_verify_roundtrip (kh : List Nat → List Nat → List Nat)
    (k : List Nat) (hk : k.length = 32) (d : List Char) :
    (do
      let key ← Blake3.tryNew k
      let s ← Blake3.sign kh key d
      Blake3.verify kh key d s) = Except.ok true := by
  have hnew : Blake3.tryNew k = Except.ok k := by
    unfold Blake3.tryNew
    rw [if_pos (by omega), show (32 : Nat) = k.length from hk.symm, List.take_length]
  rw [hnew]
  show Except.ok (decide (kh k (utf8Bytes d) = kh k (utf8Bytes d))) = Except.ok true
  simp

/-- C1 witness: the round-trip at a concrete key, data and hash. -/
theorem blake3_sign_verify_roundtrip_witness :
    (do
      let key ← Blake3.tryNew (List.replicate 32 0)
      let s ← Blake3.sign khW key "hello1".data
      Blake3.verify khW key "hello1".data s) = Except.ok true :=
  blake3_sign_verify_roundtrip khW (List.replicate 32 0) (by simp) "hello1".data

/-! ## C2: the key-length guard

The claim says a short key makes construction fail with a
`KeyFormatError` and never panic. `Ed25519Signer::try_new` does return an
error (the `TryFromSliceError` of `key.try_into()`), but `Blake3::try_new`
evaluates the slice `&key[0..32]`, which panics with an out-of-range
index when the key is shorter than 32 bytes — the spec itself flags the
fixed-length conversions as a crash to be converted into an explicit
error, so the code, not the claim, is at fault. -/

/-- C2 failing input: a 31-byte key. `Blake3::try_new` panics on it
(modelled as the distinguished `PErr.panicked` outcome) instead of
returning a key-format error; `Ed25519Signer::try_new` returns an
error as claimed. -/
theorem tryNew_short_key_behavior :
    Blake3.tryNew (List.replicate 31 0) = Except.error PErr.panicked ∧
    Ed25519Signer.tryNew (List.replicate 31 0) = Except.error PErr.tryFromSlice ∧
    (∀ key : List Nat, key.length < 32 → Blake3.tryNew key = Except.error PErr.panicked) := by
  refine ⟨rfl, rfl, fun key hk => ?_⟩
  unfold Blake3.tryNew
  rw [if_neg (by omega)]

/-! ## C4: asymmetric verify on wrong-length signatures

The claim says a signature whose length is not 64 bytes makes
`Ed25519Verifier::verify` return `Ok(false)`. It does not: the
`sig.try_into()?` conversion propagates a `TryFromSliceError`, so the
call is an error result (though not a panic). -/

/-- C4 counterexample: an empty candidate signature makes the asymmetric
verify return an error, not `Ok(false)`. -/
theorem ed25519_verify_short_sig_is_error :
    Ed25519Verifier.verify edVW (List.replicate 32 0) "hello1".data [] =
      Except.error PErr.tryFromSlice ∧
    Ed25519Verifier.verify edVW (List.replicate 32 0) "hello1".data [] ≠
      Except.ok false :=
  ⟨rfl, fun h => Except.noConfusion h⟩

/-- C4 amended: for every signature whose length is not 64, the
asymmetric verify is an error result (the `TryFromSliceError` of the
length conversion) — never a panic and never `Ok(false)` — while every
64-byte signature reaches the cryptographic check and yields `Ok` of its
outcome. -/
theorem ed25519_verify_fails_closed (edVerify : List Nat → List Nat → List Nat → Bool)
    (pk : List Nat) (d : List Char) (sig : List Nat) (h : sig.length ≠ 64) :
    Ed25519Verifier.verify edVerify pk d sig = Except.error PErr.tryFromSlice ∧
    Ed25519Verifier.verify edVerify pk d sig ≠ Except.error PErr.panicked ∧
    (∀ sig2 : List Nat, sig2.length = 64 →
      Ed25519Verifier.verify edVerify pk d sig2 = Except.ok (edVerify pk (utf8Bytes d) sig2)) := by
  unfold Ed25519Verifier.verify
  refine ⟨by rw [if_neg h], ?_, fun sig2 h2 => by rw [if_pos h2]⟩
  rw [if_neg h]
  intro hcontra
  exact PErr.noConfusion (Except.error.inj hcontra)

/-- C4 witness: the amended statement at a concrete wrong-length input. -/
theorem ed25519_verify_fails_closed_witness :
    Ed25519Verifier.verify edVW (List.replicate 32 0) "hello1".data [1, 2, 3] =
      Except.error PErr.tryFromSlice ∧
    Ed25519Verifier.verify edVW (List.replicate 32 0) "hello1".data [1, 2, 3] ≠
      Except.error PErr.panicked ∧
    (∀ sig2 : List Nat, sig2.length = 64 →
      Ed25519Verifier.verify edVW (List.replicate 32 0) "hello1".data sig2 =
        Except.ok (edVW (List.replicate 32 0) (utf8Bytes "hello1".data) sig2)) :=
  ed25519_verify_fails_closed edVW (List.replicate 32 0) "hello1".data [1, 2, 3] (by decide)

/-! ## C5: keyed-hash verification mismatch is not an error -/

/-- C5: for every keyed-hash instance, data and candidate signature of
any length, verify succeeds — `Ok(true)` exactly when the candidate
equals the recomputed 32-byte digest, `Ok(false)` on any mismatch, and
in particular `Ok(false)` whenever the candidate does not even have the
32-byte digest length. -/
theorem blake3_verify_total_and_exact (kh : List Nat → List Nat → List Nat)
    (hkh : ∀ k d, (kh k d).length = 32) (key : List Nat) (d : List Char) (sig : List Nat) :
    (Blake3.verify kh key d sig = Except.ok true ∨
      Blake3.verify kh key d sig = Except.ok false) ∧
    (Blake3.verify kh key d sig = Except.ok true ↔ sig = kh key (utf8Bytes d)) ∧
    (sig.length ≠ 32 → Blake3.verify kh key d sig = Except.ok false) := by
  unfold Blake3.verify
  refine ⟨?_, ?_, fun hlen => ?_⟩
  · by_cases hc : kh key (utf8Bytes d) = sig
    · left; simp [hc]
    · right; simp [hc]
  · constructor
    · intro h
      have := Except.ok.inj h
      have hc : kh key (utf8Bytes d) = sig := by
        by_contra hne
        simp [hne] at this
      exact hc.symm
    · intro h; simp [h]
  · have hne : kh key (utf8Bytes d) ≠ sig := by
      intro he
      exact hlen (he ▸ hkh key (utf8Bytes d))
    simp [hne]

/-- C5 witness: concrete instance, data and a 3-byte candidate. -/
theorem blake3_verify_total_and_exact_witness :
    (Blake3.verify khW (List.replicate 32 0) "hello1".data [1, 2, 3] = Except.ok true ∨
      Blake3.verify khW (List.replicate 32 0) "hello1".data [1, 2, 3] = Except.ok false) ∧
    (Blake3.verify khW (List.replicate 32 0) "hello1".data [1, 2, 3] = Except.ok true ↔
      [1, 2, 3] = khW (List.replicate 32 0) (utf8Bytes "hello1".data)) ∧
    ([1, 2, 3].length ≠ 32 →
      Blake3.verify khW (List.replicate 32 0) "hello1".data [1, 2, 3] = Except.ok false) :=
  blake3_verify_total_and_exact khW (fun k d => by simp [khW]) (List.replicate 32 0)
    "hello1".data [1, 2, 3]

/-! ## C9: determinism of signing -/

/-- C9: signing is a pure function of its inputs — two keyed-hash sign
calls on equal key and data agree and produce the 32-byte digest, and
two asymmetric sign calls on equal secret key and data agree and produce
the 64-byte signature (the embedded primitives are deterministic
functions, as BLAKE3 and Ed25519 are). -/
theorem sign_deterministic (kh edSign : List Nat → List Nat → List Nat)
    (hkh : ∀ k d, (kh k d).length = 32) (hes : ∀ k d, (edSign k d).length = 64)
    (k1 k2 sk1 sk2 : List Nat) (d1 d2 : List Char)
    (hk : k1 = k2) (hsk : sk1 = sk2) (hd : d1 = d2) :
    Blake3.sign kh k1 d1 = Blake3.sign kh k2 d2 ∧
    (∃ s, Blake3.sign kh k1 d1 = Except.ok s ∧ s.length = 32) ∧
    Ed25519Signer.sign edSign sk1 d1 = Ed25519Signer.sign edSign sk2 d2 ∧
    (∃ s, Ed25519Signer.sign edSign sk1 d1 = Except.ok s ∧ s.length = 64) := by
  subst hk; subst hsk; subst hd
  exact ⟨rfl, ⟨_, rfl, hkh _ _⟩, rfl, ⟨_, rfl, hes _ _⟩⟩

/-- C9 witness: concrete primitives, keys and data. -/
theorem sign_deterministic_witness :
    Blake3.sign khW (List.replicate 32 7) "hello1".data =
      Blake3.sign khW (List.replicate 32 7) "hello1".data ∧
    (∃ s, Blake3.sign khW (List.replicate 32 7) "hello1".data = Except.ok s ∧
      s.length = 32) ∧
    Ed25519Signer.sign edW (List.replicate 32 9) "hello1".data =
      Ed25519Signer.sign edW (List.replicate 32 9) "hello1".data ∧
    (∃ s, Ed25519Signer.sign edW (List.replicate 32 9) "hello1".data = Except.ok s ∧
      s.length = 64) :=
  sign_deterministic khW edW (fun k d => by simp [khW]) (fun k d => by simp [edW])
    (List.replicate 32 7) (List.replicate 32 7) (List.replicate 32 9) (List.replicate 32 9)
    "hello1".data "hello1".data rfl rfl rfl

/-! ## C6: the signature text encoding round-trip -/

/-- Every 6-bit group produced from in-range bytes is below 64. -/
theorem encodeGroups_lt64 : ∀ (bs : List Nat), (∀ b ∈ bs, b < 256) →
    ∀ s ∈ encodeGroups bs, s < 64
  | [], _ => by simp [encodeGroups]
  | [b1], h => by
    have h1 := h b1 (by simp)
    simp only [encodeGroups, List.mem_cons, List.not_mem_nil, or_false]
    rintro s (rfl | rfl) <;> omega
  | [b1, b2], h => by
    have h1 := h b1 (by simp)
    have h2 := h b2 (by simp)
    simp only [encodeGroups, List.mem_cons, List.not_mem_nil, or_false]
    rintro s (rfl | rfl | rfl) <;> omega
  | b1 :: b2 :: b3 :: rest, h => by
    have h1 := h b1 (by simp)
    have h2 := h b2 (by simp)
    have h3 := h b3 (by simp)
    have ih := encodeGroups_lt64 rest (fun b hb => h b (by simp [hb]))
    simp only [encodeGroups, List.mem_cons]
    rintro s (rfl | rfl | rfl | rfl | hs)
    · omega
    · omega
    · omega
    · omega
    · exact ih s hs

/-- Decoding the 6-bit groups of in-range bytes recovers the bytes: the
filler bits of a final group are zero, so the strict trailing-bits check
passes, and each byte is reassembled exactly. -/
theorem decodeGroups_encodeGroups : ∀ (bs : List Nat), (∀ b ∈ bs, b < 256) →
    decodeGroups (encodeGroups bs) = some bs
  | [], _ => rfl
  | [b1], h => by
    have h1 := h b1 (by simp)
    simp only [encodeGroups, decodeGroups]
    rw [if_pos (by omega)]
    congr 2
    omega
  | [b1, b2], h => by
    have h1 := h b1 (by simp)
    have h2 := h b2 (by simp)
    simp only [encodeGroups, decodeGroups]
    rw [if_pos (by omega)]
    congr 3
    · omega
    · omega
  | b1 :: b2 :: b3 :: rest, h => by
    have h1 := h b1 (by simp)
    have h2 := h b2 (by simp)
    have h3 := h b3 (by simp)
    have ih := decodeGroups_encodeGroups rest (fun b hb => h b (by simp [hb]))
    simp only [encodeGroups, decodeGroups, ih]
    congr 4
    · omega
    · omega
    · omega

/-- Looking an alphabet character back up yields its 6-bit value. -/
theorem charSextet_sextetChar : ∀ s < 64, charSextet (sextetChar s) = some s := by decide

/-- Mapping in-range 6-bit groups to characters and back is lossless. -/
theorem mapSextets_map_sextetChar : ∀ (l : List Nat), (∀ s ∈ l, s < 64) →
    mapSextets (l.map sextetChar) = some l
  | [], _ => rfl
  | s :: rest, h => by
    have hs := charSextet_sextetChar s (h s (by simp))
    have ih := mapSextets_map_sextetChar rest (fun x hx => h x (by simp [hx]))
    simp only [List.map_cons, mapSextets, hs, ih]

/-- The raw signing pipeline of `process_sign`: the same computation with
the final base64 encoding step removed, used to state that the encoding
is applied uniformly, after either scheme. -/
def signRaw (kh edSign : List Nat → List Nat → List Nat) (env : Env)
    (input key : String) (format : TextSignFormat) : Except PErr (List Nat) := do
  let buf ← getBuf env input
  match format with
  | .Blake3 => do
    let signer ← Blake3.load env key
    Blake3.sign kh signer buf
  | .Ed25519 => do
    let signer ← Ed25519Signer.load env key
    Ed25519Signer.sign edSign signer buf

/-- C6: decoding the signature text encoding undoes encoding on every
byte sequence; `process_sign` is exactly that encoding applied to the raw
signature of either scheme; and `process_verify` funnels every signature
text through the same decoder before dispatching on the scheme, failing
with the decode error when the text is not valid. -/
theorem b64_roundtrip_and_uniform (bs : List Nat) (h : ∀ b ∈ bs, b < 256)
    (kh edSign : List Nat → List Nat → List Nat)
    (edVerify : List Nat → List Nat → List Nat → Bool) (pkValid : List Nat → Bool)
    (env : Env) (input key sig : String) (format : TextSignFormat)
    (buf : List Char) (hbuf : getBuf env input = Except.ok buf)
    (hsig : b64decode sig = none) :
    b64decode (b64encode bs) = some bs ∧
    process_sign kh edSign env input key format =
      Except.map b64encode (signRaw kh edSign env input key format) ∧
    process_verify kh edVerify pkValid env input key sig format =
      Except.error PErr.decodeError := by
  refine ⟨?_, ?_, ?_⟩
  · show (mapSextets (String.mk ((encodeGroups bs).map sextetChar)).data).bind decodeGroups =
      some bs
    rw [show (String.mk ((encodeGroups bs).map sextetChar)).data =
      (encodeGroups bs).map sextetChar from rfl]
    rw [mapSextets_map_sextetChar _ (encodeGroups_lt64 bs h)]
    simp [decodeGroups_encodeGroups bs h]
  · unfold process_sign signRaw
    rw [hbuf]
    cases format with
    | Blake3 =>
      show (Blake3.load env key).bind _ = Except.map b64encode ((Blake3.load env key).bind _)
      cases Blake3.load env key with
      | ok k => rfl
      | error e => rfl
    | Ed25519 =>
      show (Ed25519Signer.load env key).bind _ =
        Except.map b64encode ((Ed25519Signer.load env key).bind _)
      cases Ed25519Signer.load env key with
      | ok k => rfl
      | error e => rfl
  · unfold process_verify
    rw [hbuf, hsig]
    cases format <;> rfl

/-- C6 witness: the round-trip on a concrete byte sequence, uniform
encoding at a concrete environment, and the decode error on the
non-alphabet signature text `"!"`. -/
theorem b64_roundtrip_and_uniform_witness :
    b64decode (b64encode [0, 77, 255, 3]) = some [0, 77, 255, 3] ∧
    process_sign khW edW envW "f" "k" TextSignFormat.Blake3 =
      Except.map b64encode (signRaw khW edW envW "f" "k" TextSignFormat.Blake3) ∧
    process_verify khW edVW pkVW envW "f" "k" "!" TextSignFormat.Blake3 =
      Except.error PErr.decodeError :=
  b64_roundtrip_and_uniform [0, 77, 255, 3] (by decide) khW edW edVW pkVW envW
    "f" "k" "!" TextSignFormat.Blake3 "hello1".data (by rfl) (by rfl)

/-! ## C3: what reaches the schemes, versus the full source content

`get_buf` does not hand the raw bytes through: it decodes them as UTF-8
and strips leading and trailing whitespace, so the byte sequence the
schemes sign and verify is a transformed one whenever the source has
surrounding whitespace. -/

/-- C3 counterexample: for the source `"f"` with content `" hello1\n"`,
the buffer reaching the schemes is `"hello1"`, whose UTF-8 bytes differ
from the complete byte content of the source; `process_sign` accordingly
signs the trimmed bytes. -/
theorem get_buf_transforms_content :
    getBuf envW "f" = Except.ok "hello1".data ∧
    envW.files "f" = some (utf8Bytes " hello1\n".data) ∧
    utf8Bytes "hello1".data ≠ utf8Bytes " hello1\n".data ∧
    process_sign khW edW envW "f" "k" TextSignFormat.Blake3 =
      Except.ok (b64encode (khW (List.replicate 32 65) (utf8Bytes "hello1".data))) :=
  ⟨rfl, rfl, by decide, rfl⟩

/-- C3 amended: for every readable source, the data passed to the sign
and verify operations of either scheme is the complete UTF-8 content of
that source (the whole file, or all of standard input for `"-"`) with
leading and trailing whitespace removed — no other bytes are added,
removed or transformed. -/
theorem get_buf_reads_all_then_trims (env : Env) (input : String) (bytes : List Nat)
    (s : List Char) (hsrc : sourceBytes env input = some bytes)
    (hdec : utf8Decode bytes = some s)
    (kh edSign : List Nat → List Nat → List Nat)
    (edVerify : List Nat → List Nat → List Nat → Bool) (pkValid : List Nat → Bool)
    (key sig : String) (sigBytes : List Nat) (hsig : b64decode sig = some sigBytes) :
    getBuf env input = Except.ok (trimChars s) ∧
    process_sign kh edSign env input key TextSignFormat.Blake3 =
      Except.map b64encode
        ((Blake3.load env key).bind fun k2 => Blake3.sign kh k2 (trimChars s)) ∧
    process_sign kh edSign env input key TextSignFormat.Ed25519 =
      Except.map b64encode
        ((Ed25519Signer.load env key).bind fun k2 =>
          Ed25519Signer.sign edSign k2 (trimChars s)) ∧
    process_verify kh edVerify pkValid env input key sig TextSignFormat.Blake3 =
      ((Blake3.load env key).bind fun k2 => Blake3.verify kh k2 (trimChars s) sigBytes) ∧
    process_verify kh edVerify pkValid env input key sig TextSignFormat.Ed25519 =
      ((Ed25519Verifier.load pkValid env key).bind fun k2 =>
        Ed25519Verifier.verify edVerify k2 (trimChars s) sigBytes) := by
  have hbuf : getBuf env input = Except.ok (trimChars s) := by
    unfold getBuf
    rw [hsrc]
    dsimp only
    rw [hdec]
  refine ⟨hbuf, ?_, ?_, ?_, ?_⟩
  · unfold process_sign
    rw [hbuf]
    show (Blake3.load env key).bind _ = Except.map b64encode ((Blake3.load env key).bind _)
    cases Blake3.load env key with
    | ok k2 => rfl
    | error e => rfl
  · unfold process_sign
    rw [hbuf]
    show (Ed25519Signer.load env key).bind _ =
      Except.map b64encode ((Ed25519Signer.load env key).bind _)
    cases Ed25519Signer.load env key with
    | ok k2 => rfl
    | error e => rfl
  · unfold process_verify
    rw [hbuf, hsig]
    rfl
  · unfold process_verify
    rw [hbuf, hsig]
    rfl

/-- C3 amended witness: the source `"f"` of the concrete environment. -/
theorem get_buf_reads_all_then_trims_witness :
    getBuf envW "f" = Except.ok (trimChars " hello1\n".data) ∧
    process_sign khW edW envW "f" "k" TextSignFormat.Blake3 =
      Except.map b64encode
        ((Blake3.load envW "k").bind fun k2 =>
          Blake3.sign khW k2 (trimChars " hello1\n".data)) ∧
    process_sign khW edW envW "f" "k" TextSignFormat.Ed25519 =
      Except.map b64encode
        ((Ed25519Signer.load envW "k").bind fun k2 =>
          Ed25519Signer.sign edW k2 (trimChars " hello1\n".data)) ∧
    process_verify khW edVW pkVW envW "f" "k" "AAAA" TextSignFormat.Blake3 =
      ((Blake3.load envW "k").bind fun k2 =>
        Blake3.verify khW k2 (trimChars " hello1\n".data) [0, 0, 0]) ∧
    process_verify khW edVW pkVW envW "f" "k" "AAAA" TextSignFormat.Ed25519 =
      ((Ed25519Verifier.load pkVW envW "k").bind fun k2 =>
        Ed25519Verifier.verify edVW k2 (trimChars " hello1\n".data) [0, 0, 0]) :=
  get_buf_reads_all_then_trims envW "f" (utf8Bytes " hello1\n".data) " hello1\n".data
    rfl rfl khW edW edVW pkVW "k" "AAAA" [0, 0, 0] rfl

/-! ## C10: the facade is insensitive to surrounding whitespace -/

/-- Dropping while a predicate holds skips over a prefix on which it
holds everywhere. -/
theorem dropWhile_append_of_forall {p : Char → Bool} (w l : List Char)
    (hw : ∀ c ∈ w, p c = true) :
    (w ++ l).dropWhile p = l.dropWhile p := by
  rw [List.dropWhile_append, List.dropWhile_eq_nil_iff.mpr hw]
  simp

/-- Trimming ignores whitespace padding on either side. -/
theorem trimChars_pad (w1 w2 x : List Char)
    (h1 : ∀ c ∈ w1, isRustWhitespace c = true)
    (h2 : ∀ c ∈ w2, isRustWhitespace c = true) :
    trimChars (w1 ++ (x ++ w2)) = trimChars x := by
  unfold trimChars
  rw [dropWhile_append_of_forall w1 (x ++ w2) h1]
  by_cases hx : x.dropWhile isRustWhitespace = []
  · have hxall : ∀ c ∈ x, isRustWhitespace c = true := List.dropWhile_eq_nil_iff.mp hx
    rw [dropWhile_append_of_forall x w2 hxall, List.dropWhile_eq_nil_iff.mpr h2, hx]
  · rw [List.dropWhile_append, if_neg (by simpa using hx), List.reverse_append,
      dropWhile_append_of_forall w2.reverse _ (fun c hc => h2 c (List.mem_reverse.mp hc))]

/-- C10: any two sources — a file path or standard input (`"-"`), in the
same invocation or in two invocations with the same key material — whose
UTF-8 contents are the same string up to leading and trailing whitespace
produce the same signature text under `process_sign` and the same
outcome under `process_verify`, with the same key and format, because
`get_buf` trims the content before it reaches the schemes. -/
theorem facade_whitespace_insensitive (kh edSign : List Nat → List Nat → List Nat)
    (edVerify : List Nat → List Nat → List Nat → Bool) (pkValid : List Nat → Bool)
    (env1 env2 : Env) (input1 input2 key : String)
    (hkey : env1.files key = env2.files key)
    (c1 c2 : List Nat)
    (hsrc1 : sourceBytes env1 input1 = some c1)
    (hsrc2 : sourceBytes env2 input2 = some c2)
    (x w1 w2 w3 w4 : List Char)
    (hw1 : ∀ c ∈ w1, isRustWhitespace c = true)
    (hw2 : ∀ c ∈ w2, isRustWhitespace c = true)
    (hw3 : ∀ c ∈ w3, isRustWhitespace c = true)
    (hw4 : ∀ c ∈ w4, isRustWhitespace c = true)
    (hd1 : utf8Decode c1 = some (w1 ++ (x ++ w2)))
    (hd2 : utf8Decode c2 = some (w3 ++ (x ++ w4)))
    (format : TextSignFormat) (sig : String) :
    process_sign kh edSign env1 input1 key format =
      process_sign kh edSign env2 input2 key format ∧
    process_verify kh edVerify pkValid env1 input1 key sig format =
      process_verify kh edVerify pkValid env2 input2 key sig format := by
  have hb1 : getBuf env1 input1 = Except.ok (trimChars x) := by
    unfold getBuf
    rw [hsrc1]
    dsimp only
    rw [hd1]
    dsimp only
    rw [trimChars_pad w1 w2 x hw1 hw2]
  have hb2 : getBuf env2 input2 = Except.ok (trimChars x) := by
    unfold getBuf
    rw [hsrc2]
    dsimp only
    rw [hd2]
    dsimp only
    rw [trimChars_pad w3 w4 x hw3 hw4]
  have hl3 : Blake3.load env1 key = Blake3.load env2 key := by
    unfold Blake3.load
    rw [hkey]
  have hlS : Ed25519Signer.load env1 key = Ed25519Signer.load env2 key := by
    unfold Ed25519Signer.load
    rw [hkey]
  have hlV : Ed25519Verifier.load pkValid env1 key = Ed25519Verifier.load pkValid env2 key := by
    unfold Ed25519Verifier.load
    rw [hkey]
  unfold process_sign process_verify
  rw [hb1, hb2, hl3, hlS, hlV]
  exact ⟨rfl, rfl⟩

/-- C10 witness: the file source `"f"` (`" hello1\n"`) of the concrete
environment against the standard-input source `"-"` of an invocation
whose standard input holds `"hello1"`, with the shared key file `"k"`. -/
theorem facade_whitespace_insensitive_witness :
    (process_sign khW edW envW "f" "k" TextSignFormat.Blake3 =
      process_sign khW edW envW2 "-" "k" TextSignFormat.Blake3 ∧
    process_verify khW edVW pkVW envW "f" "k" "AAAA" TextSignFormat.Blake3 =
      process_verify khW edVW pkVW envW2 "-" "k" "AAAA" TextSignFormat.Blake3) ∧
    (process_sign khW edW envW "f" "k" TextSignFormat.Ed25519 =
      process_sign khW edW envW2 "-" "k" TextSignFormat.Ed25519 ∧
    process_verify khW edVW pkVW envW "f" "k" "AAAA" TextSignFormat.Ed25519 =
      process_verify khW edVW pkVW envW2 "-" "k" "AAAA" TextSignFormat.Ed25519) :=
  ⟨facade_whitespace_insensitive khW edW edVW pkVW envW envW2 "f" "-" "k" rfl
    (utf8Bytes " hello1\n".data) (utf8Bytes "hello1".data) rfl rfl
    "hello1".data " ".data "\n".data [] []
    (by decide) (by decide) (by decide) (by decide)
    rfl rfl TextSignFormat.Blake3 "AAAA",
  facade_whitespace_insensitive khW edW edVW pkVW envW envW2 "f" "-" "k" rfl
    (utf8Bytes " hello1\n".data) (utf8Bytes "hello1".data) rfl rfl
    "hello1".data " ".data "\n".data [] []
    (by decide) (by decide) (by decide) (by decide)
    rfl rfl TextSignFormat.Ed25519 "AAAA"⟩

/-! ## C7: asymmetric keygen shape and order -/

/-- C7: keygen with the asymmetric format returns exactly two blobs, the
32-byte secret key first and its 32-byte verifying key second. -/
theorem process_keygen_ed25519_shape (edPub : List Nat → List Nat)
    (hpub : ∀ k, (edPub k).length = 32) (rng : Nat → Nat) :
    ∃ sk, process_keygen edPub rng TextSignFormat.Ed25519 = Except.ok [sk, edPub sk] ∧
      sk.length = 32 ∧ (edPub sk).length = 32 :=
  ⟨(List.range 32).map (fun i => rng i % 256), rfl, by simp, hpub _⟩

/-- C7 witness: concrete derivation function and random stream. -/
theorem process_keygen_ed25519_shape_witness :
    ∃ sk, process_keygen pubW rngW TextSignFormat.Ed25519 = Except.ok [sk, pubW sk] ∧
      sk.length = 32 ∧ (pubW sk).length = 32 :=
  process_keygen_ed25519_shape pubW (fun k => by simp [pubW]) rngW

/-! ## C8: keyed-hash keygen

In the sources as given, `process_genpass` (in `gen_pass.rs`) returns
`Result<()>` and prints the password, while both of its callers —
`Blake3::generate`, which calls `.as_bytes()` on the result, and `main`,
which prints it — consume it as the password string, and the spec
declares `generate_password(...) -> string`. The claim describes the
clearly intended helper; the declared unit return type of the helper is
the slip. The theorems below are about the model with the intended
string return. -/

/-- The fill loop appends exactly the requested number of characters. -/
theorem gpFill_length (rng : Nat → Nat) (pool : List Nat) :
    ∀ (n ctr : Nat) (pw : List Nat), (gpFill rng pool n ctr pw).1.length = pw.length + n
  | 0, _, _ => rfl
  | n + 1, ctr, pw => by
    rw [gpFill, gpFill_length rng pool n (ctr + 1) (pw ++ [chooseB rng ctr pool])]
    simp
    omega

/-- A swap leaves the length unchanged. -/
theorem listSwap_length (l : List Nat) (i j : Nat) :
    (listSwap l i j).length = l.length := by
  simp [listSwap]

/-- The Fisher-Yates walk leaves the length unchanged. -/
theorem shuffleSteps_length (rng : Nat → Nat) :
    ∀ (k ctr : Nat) (l : List Nat), (shuffleSteps rng ctr k l).length = l.length
  | 0, _, _ => rfl
  | k + 1, ctr, l => by
    rw [shuffleSteps, shuffleSteps_length rng k (ctr + 1), listSwap_length]

/-- With all four class flags enabled and requested length 32, the
password has exactly 32 characters: one from each class and 28 from the
pooled alphabet, then shuffled. -/
theorem process_genpass_32_length (rng : Nat → Nat) :
    (process_genpass rng 32 1 1 1 1).length = 32 := by
  unfold process_genpass
  rw [shuffleSteps_length]
  have h4 : (gpAddClass rng 1 SYMBOLS
      (gpAddClass rng 1 NUMBERS
        (gpAddClass rng 1 LOWERCASE
          (gpAddClass rng 1 UPPERCASE ⟨[], [], 0⟩)))).password.length = 4 := by
    simp [gpAddClass]
  rw [gpFill_length]
  omega

/-- C8: keygen with the keyed-hash format returns exactly one blob: the
32 bytes of the password produced by the helper invoked with length 32
and all four character classes enabled. -/
theorem process_keygen_blake3_shape (edPub : List Nat → List Nat) (rng : Nat → Nat) :
    process_keygen edPub rng TextSignFormat.Blake3 =
      Except.ok [process_genpass rng 32 1 1 1 1] ∧
    (process_genpass rng 32 1 1 1 1).length = 32 :=
  ⟨rfl, process_genpass_32_length rng⟩

end RCli
